import Mathlib

/-!
Verification of the typecalm runtime validation library (src/index.ts).

The TypeScript source is embedded shallowly:

* JavaScript runtime values are the inductive `JSVal` (numbers are modelled
  as integers plus a separate `nan` constructor, since the only floating
  behavior the library inspects is `val !== val`, which holds exactly for
  NaN; arrays and objects compare by reference in JS, so `sameValueZero`
  treats two separately constructed structured values as different).
* The factory state (the mutable `forceError` flag of `TypeCalm`) together
  with the observable trace of custom-error-handler invocations is
  `PolicyState`; a factory configuration (`customErrorHandler` present or
  not) is `Config`.
* A guard body is a state-passing computation `GuardM` that either returns
  a value or raises a message (`throw new Error(str)` is modelled as the
  `Except.error` outcome carrying the message; `(e as Error).message`
  recovers the message and `String(e)` renders it as "Error: " ++ message).
* Each exported guard/combinator of the source is a Lean definition of the
  same name in namespace `TypeCalm`, translated line by line, including the
  try/catch/finally choreography around the suppression flag.
* `GuardExpr` closes the combinator grammar so that properties can be
  stated for every guard built from the factory's primitives.
-/

/-- A JavaScript runtime value, as far as the library inspects one.
Number payloads are integers; `nan` is the separate "not-a-number" number
(`typeof NaN === "number"`, `NaN !== NaN`). -/
inductive JSVal : Type where
  | num (x : Int)
  | nan
  | str (s : String)
  | bool (b : Bool)
  | null
  | undefined
  | arr (elems : List JSVal)
  | obj (fields : List (String × JSVal))

/-- JavaScript `typeof`. Note `typeof null === "object"`. -/
def jsTypeof : JSVal → String
  | JSVal.num _ => "number"
  | JSVal.nan => "number"
  | JSVal.str _ => "string"
  | JSVal.bool _ => "boolean"
  | JSVal.null => "object"
  | JSVal.undefined => "undefined"
  | JSVal.arr _ => "object"
  | JSVal.obj _ => "object"

/-- The JS check `val !== val`, true exactly for NaN. -/
def isNaNVal : JSVal → Bool
  | JSVal.nan => true
  | _ => false

/-- `val === null || typeof val !== "object"` is false exactly for arrays
and plain objects (null is excluded explicitly in the source even though
its typeof is "object"). -/
def isStructured : JSVal → Bool
  | JSVal.arr _ => true
  | JSVal.obj _ => true
  | _ => false

mutual

/-- JavaScript `String(v)` / template-literal interpolation. -/
def jsToString : JSVal → String
  | JSVal.num x => toString x
  | JSVal.nan => "NaN"
  | JSVal.str s => s
  | JSVal.bool b => if b then "true" else "false"
  | JSVal.null => "null"
  | JSVal.undefined => "undefined"
  | JSVal.arr xs => jsToStringList xs
  | JSVal.obj _ => "[object Object]"

/-- `Array.prototype.toString`: elements joined by commas, with null and
undefined rendered as the empty string. -/
def jsToStringList : List JSVal → String
  | [] => ""
  | [x] => jsToStringElem x
  | x :: y :: rest => jsToStringElem x ++ "," ++ jsToStringList (y :: rest)

def jsToStringElem : JSVal → String
  | JSVal.null => ""
  | JSVal.undefined => ""
  | JSVal.num x => toString x
  | JSVal.nan => "NaN"
  | JSVal.str s => s
  | JSVal.bool b => if b then "true" else "false"
  | JSVal.arr xs => jsToStringList xs
  | JSVal.obj _ => "[object Object]"

end

mutual

/-- `JSON.stringify(v)` as it appears interpolated into a template literal
(so `JSON.stringify(undefined)`, which yields the undefined value, prints
as "undefined"). -/
def jsonStringify : JSVal → String
  | JSVal.num x => toString x
  | JSVal.nan => "null"
  | JSVal.str s => "\"" ++ s ++ "\""
  | JSVal.bool b => if b then "true" else "false"
  | JSVal.null => "null"
  | JSVal.undefined => "undefined"
  | JSVal.arr xs => "[" ++ jsonStringifyList xs ++ "]"
  | JSVal.obj fs => "\x7b" ++ jsonStringifyFields fs ++ "\x7d"

def jsonStringifyList : List JSVal → String
  | [] => ""
  | [x] => jsonStringify x
  | x :: y :: rest => jsonStringify x ++ "," ++ jsonStringifyList (y :: rest)

def jsonStringifyFields : List (String × JSVal) → String
  | [] => ""
  | [(k, v)] => "\"" ++ k ++ "\":" ++ jsonStringify v
  | (k, v) :: p :: rest =>
      "\"" ++ k ++ "\":" ++ jsonStringify v ++ "," ++ jsonStringifyFields (p :: rest)

end

/-- `Number(s)` on a string: trimmed empty string is 0, an integer literal
parses, anything else is NaN (the library's number payloads are integers). -/
def parseJsNumber (s : String) : JSVal :=
  let t := s.trim
  if t = "" then JSVal.num 0
  else
    match t.toInt? with
    | some n => JSVal.num n
    | none => JSVal.nan

/-- JavaScript `Number(v)`. Arrays coerce through their string rendering. -/
def jsNumber : JSVal → JSVal
  | JSVal.num x => JSVal.num x
  | JSVal.nan => JSVal.nan
  | JSVal.bool b => JSVal.num (if b then 1 else 0)
  | JSVal.null => JSVal.num 0
  | JSVal.undefined => JSVal.nan
  | JSVal.str s => parseJsNumber s
  | JSVal.arr xs => parseJsNumber (jsToString (JSVal.arr xs))
  | JSVal.obj _ => JSVal.nan

/-- JavaScript `Boolean(v)`. -/
def jsBoolean : JSVal → Bool
  | JSVal.num x => x != 0
  | JSVal.nan => false
  | JSVal.str s => s != ""
  | JSVal.bool b => b
  | JSVal.null => false
  | JSVal.undefined => false
  | JSVal.arr _ => true
  | JSVal.obj _ => true

/-- The SameValueZero comparison used by `Array.prototype.includes`:
primitive values compare by value (with NaN equal to NaN); arrays and
objects compare by reference, so two separately constructed structured
values are never equal. -/
def sameValueZero : JSVal → JSVal → Bool
  | JSVal.num a, JSVal.num b => a == b
  | JSVal.nan, JSVal.nan => true
  | JSVal.str a, JSVal.str b => a == b
  | JSVal.bool a, JSVal.bool b => a == b
  | JSVal.null, JSVal.null => true
  | JSVal.undefined, JSVal.undefined => true
  | _, _ => false

/-- Property access `val[k]`: assoc-list lookup on objects, canonical
numeric indexing on arrays, undefined otherwise. -/
def getProp (val : JSVal) (k : String) : JSVal :=
  match val with
  | JSVal.obj fs =>
      match fs.find? (fun p => p.1 == k) with
      | some p => p.2
      | none => JSVal.undefined
  | JSVal.arr xs =>
      match k.toNat? with
      | some i => if toString i == k then xs.getD i JSVal.undefined else JSVal.undefined
      | none => JSVal.undefined
  | _ => JSVal.undefined

/-- The keys a `for (const k in val)` loop visits: an object's own keys in
insertion order, an array's indices. -/
def ownKeys : JSVal → List String
  | JSVal.obj fs => fs.map Prod.fst
  | JSVal.arr xs => (List.range xs.length).map toString
  | _ => []

/-- The factory's mutable state: the `forceError` suppression flag, plus
the observable trace of messages handed to the custom error handler. -/
structure PolicyState : Type where
  forceError : Bool
  handlerCalls : List String
deriving DecidableEq

/-- A factory configuration: whether `TypeCalm({ customErrorHandler })`
was given a handler. -/
structure Config : Type where
  customErrorHandler : Bool
deriving DecidableEq

/-- The factory with no custom handler (the module-level export set). -/
def cfgDefault : Config := Config.mk false

/-- A factory constructed with a custom (non-raising) error handler. -/
def cfgCustom : Config := Config.mk true

/-- A guard-body computation: state passing over `PolicyState`, raising a
message or returning a value. A raise does not roll the state back, just
as a JS throw leaves the factory's `forceError` variable as it was. -/
def GuardM (α : Type) : Type := PolicyState → Except String α × PolicyState

def GuardM.pure {α : Type} (a : α) : GuardM α := fun s => (Except.ok a, s)

def GuardM.bind {α β : Type} (m : GuardM α) (f : α → GuardM β) : GuardM β := fun s =>
  match m s with
  | (Except.ok a, s1) => f a s1
  | (Except.error e, s1) => (Except.error e, s1)

instance : Monad GuardM where
  pure := GuardM.pure
  bind := GuardM.bind

/-- `throw new Error(msg)`. -/
def throwG {α : Type} (msg : String) : GuardM α := fun s => (Except.error msg, s)

/-- Read the factory's `forceError` flag. -/
def getFlag : GuardM Bool := fun s => (Except.ok s.forceError, s)

/-- Assign the factory's `forceError` flag. -/
def setFlag (b : Bool) : GuardM Unit := fun s => (Except.ok Unit.unit, { s with forceError := b })

/-- A `try` block: capture the raised message instead of propagating it. -/
def attempt {α : Type} (m : GuardM α) : GuardM (Except String α) := fun s =>
  match m s with
  | (r, s1) => (Except.ok r, s1)

/-- The factory's `errorHandler`: raise when `forceError` is set or no
custom handler is configured, otherwise invoke the custom handler (record
the message) and return. -/
def errorHandler (cfg : Config) (msg : String) : GuardM Unit := fun s =>
  if s.forceError || !cfg.customErrorHandler then (Except.error msg, s)
  else (Except.ok Unit.unit, { s with handlerCalls := s.handlerCalls ++ [msg] })

/-- The `invalidType` message template. -/
def invalidType (value : JSVal) (type : String) : String :=
  "`" ++ jsonStringify value ++ "` is not " ++ type ++ "."

/-- The `castingType` message template. -/
def castingType (value : JSVal) (type : String) : String :=
  "Casting `" ++ jsonStringify value ++ "` to " ++ type ++ "."

/-- A guard bound to a factory. -/
def Guard : Type := JSVal → GuardM JSVal

namespace TypeCalm

/-- The `string` primitive guard. -/
def string (cfg : Config) : Guard := fun val =>
  if jsTypeof val ≠ "string" then do
    errorHandler cfg (invalidType val "a `string`")
    errorHandler cfg (castingType val "a `string`")
    GuardM.pure (JSVal.str (jsToString val))
  else GuardM.pure val

/-- The `number` primitive guard (with the extra `val !== val` NaN check). -/
def number (cfg : Config) : Guard := fun val =>
  if jsTypeof val ≠ "number" then do
    errorHandler cfg (invalidType val "a `number`")
    errorHandler cfg (castingType val "a `number`")
    GuardM.pure (jsNumber val)
  else do
    if isNaNVal val then errorHandler cfg ("\"" ++ jsToString val ++ "\" is a NaN")
    GuardM.pure val

/-- The `boolean` primitive guard. -/
def boolean (cfg : Config) : Guard := fun val =>
  if jsTypeof val ≠ "boolean" then do
    errorHandler cfg (invalidType val "a `boolean`")
    errorHandler cfg (castingType val "a `boolean`")
    GuardM.pure (JSVal.bool (jsBoolean val))
  else GuardM.pure val

/-- `val.map(inner)`: elements in order, a raise aborts the rest. -/
def mapGuard (inner : Guard) : List JSVal → GuardM (List JSVal)
  | [] => GuardM.pure []
  | x :: xs => do
    let y ← inner x
    let ys ← mapGuard inner xs
    GuardM.pure (y :: ys)

/-- The `array(inner)` combinator. -/
def array (cfg : Config) (inner : Guard) : Guard := fun val =>
  match val with
  | JSVal.arr elems => do
    let out ← mapGuard inner elems
    GuardM.pure (JSVal.arr out)
  | _ => do
    errorHandler cfg (invalidType val "an `array`")
    errorHandler cfg ("Wrapping \"" ++ jsToString val ++ "\" in array")
    let out ← mapGuard inner [val]
    GuardM.pure (JSVal.arr out)

/-- The field loop of `object`: for each declared field, record
`skipCleanup = forceError`, force suppression, try the inner guard; on a
caught failure restore the flag, report the annotated message (which may
itself raise) and copy the raw field value; the `finally` restore runs on
every path. -/
def objectFields (cfg : Config) (val : JSVal) :
    List (String × Guard) → GuardM (List (String × JSVal))
  | [] => GuardM.pure []
  | (k, g) :: rest => do
    let skipCleanup ← getFlag
    setFlag true
    let r ← attempt (g (getProp val k))
    match r with
    | Except.ok w => do
      if !skipCleanup then setFlag false
      let restOut ← objectFields cfg val rest
      GuardM.pure ((k, w) :: restOut)
    | Except.error e => do
      if !skipCleanup then setFlag false
      let hr ← attempt (errorHandler cfg ("Object '" ++ k ++ "' property error: " ++ e))
      if !skipCleanup then setFlag false
      match hr with
      | Except.ok _ => do
        let restOut ← objectFields cfg val rest
        GuardM.pure ((k, getProp val k) :: restOut)
      | Except.error e2 => throwG e2

/-- The `object(inner)` combinator; `inner` is the declared shape in
declaration order. -/
def object (cfg : Config) (inner : List (String × Guard)) : Guard := fun val =>
  if isStructured val then do
    let out ← objectFields cfg val inner
    GuardM.pure (JSVal.obj out)
  else do
    errorHandler cfg (invalidType val "an `object`")
    errorHandler cfg
      ("Cannot cast `" ++ jsonStringify val ++ "` to object. Fingers crossed it's not important.")
    GuardM.pure val

/-- The value loop of `recordOf`: every own key's value through `inner`,
failures neither caught nor annotated. -/
def recordFields (inner : Guard) (val : JSVal) :
    List String → GuardM (List (String × JSVal))
  | [] => GuardM.pure []
  | k :: ks => do
    let w ← inner (getProp val k)
    let rest ← recordFields inner val ks
    GuardM.pure ((k, w) :: rest)

/-- The `recordOf(inner)` combinator. -/
def recordOf (cfg : Config) (inner : Guard) : Guard := fun val =>
  if isStructured val then do
    let out ← recordFields inner val (ownKeys val)
    GuardM.pure (JSVal.obj out)
  else do
    errorHandler cfg (invalidType val "an `object`")
    errorHandler cfg
      ("Cannot cast `" ++ jsonStringify val ++ "` to object. Fingers crossed it's not important.")
    GuardM.pure val

/-- The `nullable(inner)` modifier. -/
def nullable (inner : Guard) : Guard := fun val =>
  match val with
  | JSVal.null => GuardM.pure JSVal.null
  | _ => inner val

/-- The `optional(inner)` modifier. -/
def optional (inner : Guard) : Guard := fun val =>
  match val with
  | JSVal.undefined => GuardM.pure JSVal.undefined
  | _ => inner val

/-- `errors.forEach(e => errorHandler(String(e)))`: report each collected
error in order; in a raising configuration the first report raises and the
rest never run. -/
def reportErrors (cfg : Config) : List String → GuardM Unit
  | [] => GuardM.pure Unit.unit
  | e :: rest => do
    errorHandler cfg e
    reportErrors cfg rest

/-- The `either(inner1, inner2)` combinator. The collected exceptions are
rendered by `String(e)` as "Error: " ++ message at report time; the
`finally` block restores the flag, reports when neither branch matched,
and returns the original input value on every non-raising path. -/
def either (cfg : Config) (inner1 inner2 : Guard) : Guard := fun value => do
  let skipCleanup ← getFlag
  setFlag true
  let r1 ← attempt (inner1 value)
  let outcome ← match r1 with
    | Except.ok _ => GuardM.pure (true, ([] : List String))
    | Except.error e1 => do
      let r2 ← attempt (inner2 value)
      match r2 with
      | Except.ok _ => GuardM.pure (true, [e1])
      | Except.error e2 => GuardM.pure (false, [e1, e2])
  if !skipCleanup then setFlag false
  if !outcome.1 then reportErrors cfg (outcome.2.map (fun e => "Error: " ++ e))
  GuardM.pure value

/-- The `is(value, typeguard)` predicate: record the prior flag, force
suppression, probe the guard, restore, and turn the outcome into a
boolean. The factory configuration is never consulted: no path reaches
`errorHandler` directly. -/
def is (_cfg : Config) (value : JSVal) (typeguard : Guard) : GuardM Bool := do
  let skipCleanup ← getFlag
  setFlag true
  let r ← attempt (typeguard value)
  if !skipCleanup then setFlag false
  match r with
  | Except.ok _ => GuardM.pure true
  | Except.error _ => GuardM.pure false

/-- The `oneOf(...values)` guard. The final `value as T[number]` in the
source is an expression statement, not a return, so the fall-through
result of the function is undefined. -/
def oneOf (cfg : Config) (values : List JSVal) : Guard := fun value =>
  if values.any (fun w => sameValueZero w value) then GuardM.pure value
  else do
    errorHandler cfg (invalidType value ("one of " ++ jsToString (JSVal.arr values)))
    GuardM.pure JSVal.undefined

end TypeCalm

mutual

/-- The closed grammar of guards a factory hands out: primitives and the
structural combinators applied to guards of the same grammar. -/
inductive GuardExpr : Type where
  | gNumber
  | gString
  | gBoolean
  | gArray (inner : GuardExpr)
  | gObject (fields : FieldList)
  | gRecordOf (inner : GuardExpr)
  | gNullable (inner : GuardExpr)
  | gOptional (inner : GuardExpr)
  | gEither (inner1 inner2 : GuardExpr)
  | gOneOf (values : List JSVal)

/-- A declared object shape: field names with their guards, in declaration
order. -/
inductive FieldList : Type where
  | fnil
  | fcons (k : String) (g : GuardExpr) (rest : FieldList)

end

/-- The number of declared fields of a shape. -/
def FieldList.length : FieldList → Nat
  | FieldList.fnil => 0
  | FieldList.fcons _ _ rest => 1 + rest.length

mutual

/-- Interpret a guard expression as the factory-bound guard it denotes. -/
def evalGuard (cfg : Config) : GuardExpr → Guard
  | GuardExpr.gNumber => TypeCalm.number cfg
  | GuardExpr.gString => TypeCalm.string cfg
  | GuardExpr.gBoolean => TypeCalm.boolean cfg
  | GuardExpr.gArray inner => TypeCalm.array cfg (evalGuard cfg inner)
  | GuardExpr.gObject fields => TypeCalm.object cfg (evalFields cfg fields)
  | GuardExpr.gRecordOf inner => TypeCalm.recordOf cfg (evalGuard cfg inner)
  | GuardExpr.gNullable inner => TypeCalm.nullable (evalGuard cfg inner)
  | GuardExpr.gOptional inner => TypeCalm.optional (evalGuard cfg inner)
  | GuardExpr.gEither inner1 inner2 =>
      TypeCalm.either cfg (evalGuard cfg inner1) (evalGuard cfg inner2)
  | GuardExpr.gOneOf values => TypeCalm.oneOf cfg values

/-- Interpret a declared shape fieldwise. -/
def evalFields (cfg : Config) : FieldList → List (String × Guard)
  | FieldList.fnil => []
  | FieldList.fcons k g rest => (k, evalGuard cfg g) :: evalFields cfg rest

end

/-- Whether an outcome is a normal return (no raise). -/
def succeeded {α : Type} : Except String α → Bool
  | Except.ok _ => true
  | Except.error _ => false

/-- Character-list prefix test, for substring reasoning about messages. -/
def isPrefixChars : List Char → List Char → Bool
  | [], _ => true
  | _ :: _, [] => false
  | a :: as, b :: bs => a == b && isPrefixChars as bs

/-- Character-list substring test. -/
def containsChars (hay : List Char) (needle : List Char) : Bool :=
  isPrefixChars needle hay ||
    match hay with
    | [] => false
    | _ :: rest => containsChars rest needle

/-- Whether `needle` occurs as a substring of `hay`. -/
def containsSubstr (hay needle : String) : Bool :=
  containsChars hay.data needle.data

/-- The suppression flag immediately after the invocation equals its value
immediately before, whether the invocation returns or raises. -/
def FlagRestored (g : Guard) : Prop :=
  ∀ v s, ((g v) s).2.forceError = s.forceError

/-- Under suppression an invocation leaves the factory state untouched:
the flag stays set and no handler invocation is recorded. -/
def SuppressedInert (g : Guard) : Prop :=
  ∀ v s, s.forceError = true → ((g v) s).2 = s

/-- With no custom handler configured, an invocation never records a
handler call (every unrecovered failure raises instead). -/
def SilentWhenDefault (cfg : Config) (g : Guard) : Prop :=
  cfg.customErrorHandler = false → ∀ v s, ((g v) s).2.handlerCalls = s.handlerCalls

/-- The three state-discipline invariants a factory-bound guard obeys. -/
def Good (cfg : Config) (g : Guard) : Prop :=
  FlagRestored g ∧ SuppressedInert g ∧ SilentWhenDefault cfg g

/-! ### Basic computation lemmas for the state-passing monad -/

theorem GuardM.bind_apply {α β : Type} (m : GuardM α) (f : α → GuardM β) (s : PolicyState) :
    (m >>= f) s =
      match m s with
      | (Except.ok a, s1) => f a s1
      | (Except.error e, s1) => (Except.error e, s1) := rfl

theorem GuardM.pure_apply {α : Type} (a : α) (s : PolicyState) :
    (GuardM.pure a : GuardM α) s = (Except.ok a, s) := rfl

theorem GuardM.monadPure_apply {α : Type} (a : α) (s : PolicyState) :
    (Pure.pure a : GuardM α) s = (Except.ok a, s) := rfl

theorem getFlag_apply (s : PolicyState) : getFlag s = (Except.ok s.forceError, s) := rfl

theorem setFlag_apply (b : Bool) (s : PolicyState) :
    setFlag b s = (Except.ok Unit.unit, { s with forceError := b }) := rfl

theorem throwG_apply {α : Type} (msg : String) (s : PolicyState) :
    (throwG msg : GuardM α) s = (Except.error msg, s) := rfl

theorem attempt_apply {α : Type} (m : GuardM α) (s : PolicyState) :
    attempt m s = (Except.ok (m s).1, (m s).2) := rfl

theorem errorHandler_apply (cfg : Config) (msg : String) (s : PolicyState) :
    errorHandler cfg msg s =
      if s.forceError || !cfg.customErrorHandler then (Except.error msg, s)
      else (Except.ok Unit.unit, { s with handlerCalls := s.handlerCalls ++ [msg] }) := rfl

theorem errorHandler_flag (cfg : Config) (msg : String) (s : PolicyState) :
    ((errorHandler cfg msg) s).2.forceError = s.forceError := by
  rw [errorHandler_apply]
  split <;> rfl

theorem errorHandler_inert (cfg : Config) (msg : String) (s : PolicyState)
    (h : s.forceError = true) : errorHandler cfg msg s = (Except.error msg, s) := by
  rw [errorHandler_apply, h]
  simp

theorem errorHandler_default (cfg : Config) (msg : String) (s : PolicyState)
    (h : cfg.customErrorHandler = false) : errorHandler cfg msg s = (Except.error msg, s) := by
  rw [errorHandler_apply, h]
  simp

/-! ### Run characterizations of the primitive guards -/

theorem number_run (cfg : Config) (v : JSVal) (b : Bool) (hc : List String) :
    (TypeCalm.number cfg v) (PolicyState.mk b hc) =
      if jsTypeof v = "number" then
        if isNaNVal v then
          if b || !cfg.customErrorHandler then
            (Except.error ("\"" ++ jsToString v ++ "\" is a NaN"), PolicyState.mk b hc)
          else (Except.ok v, PolicyState.mk b (hc ++ ["\"" ++ jsToString v ++ "\" is a NaN"]))
        else (Except.ok v, PolicyState.mk b hc)
      else
        if b || !cfg.customErrorHandler then
          (Except.error (invalidType v "a `number`"), PolicyState.mk b hc)
        else
          (Except.ok (jsNumber v),
            PolicyState.mk b (hc ++ [invalidType v "a `number`", castingType v "a `number`"])) := by
  by_cases h : jsTypeof v = "number" <;>
    rcases cfg with ⟨ch⟩ <;> cases b <;> cases ch <;> cases hnan : isNaNVal v <;>
      simp [TypeCalm.number, h, hnan, GuardM.bind_apply, GuardM.pure_apply,
        GuardM.monadPure_apply, errorHandler_apply]

theorem string_run (cfg : Config) (v : JSVal) (b : Bool) (hc : List String) :
    (TypeCalm.string cfg v) (PolicyState.mk b hc) =
      if jsTypeof v = "string" then (Except.ok v, PolicyState.mk b hc)
      else
        if b || !cfg.customErrorHandler then
          (Except.error (invalidType v "a `string`"), PolicyState.mk b hc)
        else
          (Except.ok (JSVal.str (jsToString v)),
            PolicyState.mk b (hc ++ [invalidType v "a `string`", castingType v "a `string`"])) := by
  by_cases h : jsTypeof v = "string" <;>
    rcases cfg with ⟨ch⟩ <;> cases b <;> cases ch <;>
      simp [TypeCalm.string, h, GuardM.bind_apply, GuardM.pure_apply,
        GuardM.monadPure_apply, errorHandler_apply]

theorem boolean_run (cfg : Config) (v : JSVal) (b : Bool) (hc : List String) :
    (TypeCalm.boolean cfg v) (PolicyState.mk b hc) =
      if jsTypeof v = "boolean" then (Except.ok v, PolicyState.mk b hc)
      else
        if b || !cfg.customErrorHandler then
          (Except.error (invalidType v "a `boolean`"), PolicyState.mk b hc)
        else
          (Except.ok (JSVal.bool (jsBoolean v)),
            PolicyState.mk b (hc ++ [invalidType v "a `boolean`", castingType v "a `boolean`"])) := by
  by_cases h : jsTypeof v = "boolean" <;>
    rcases cfg with ⟨ch⟩ <;> cases b <;> cases ch <;>
      simp [TypeCalm.boolean, h, GuardM.bind_apply, GuardM.pure_apply,
        GuardM.monadPure_apply, errorHandler_apply]

theorem oneOf_run (cfg : Config) (values : List JSVal) (v : JSVal) (b : Bool) (hc : List String) :
    (TypeCalm.oneOf cfg values v) (PolicyState.mk b hc) =
      if values.any (fun w => sameValueZero w v) then (Except.ok v, PolicyState.mk b hc)
      else
        if b || !cfg.customErrorHandler then
          (Except.error (invalidType v ("one of " ++ jsToString (JSVal.arr values))),
            PolicyState.mk b hc)
        else
          (Except.ok JSVal.undefined,
            PolicyState.mk b
              (hc ++ [invalidType v ("one of " ++ jsToString (JSVal.arr values))])) := by
  by_cases h : values.any (fun w => sameValueZero w v) <;>
    rcases cfg with ⟨ch⟩ <;> cases b <;> cases ch <;>
      simp [TypeCalm.oneOf, h, GuardM.bind_apply, GuardM.pure_apply,
        GuardM.monadPure_apply, errorHandler_apply]

/-! ### Compositional invariant lemmas -/

theorem bind_flag {α β : Type} {m : GuardM α} {f : α → GuardM β}
    (hm : ∀ s, (m s).2.forceError = s.forceError)
    (hf : ∀ a s, ((f a) s).2.forceError = s.forceError) :
    ∀ s, ((m >>= f) s).2.forceError = s.forceError := by
  intro s
  rw [GuardM.bind_apply]
  rcases hr : m s with ⟨r, s1⟩
  have h1 := hm s
  rw [hr] at h1
  cases r with
  | error e => exact h1
  | ok a => exact (hf a s1).trans h1

theorem bind_inert {α β : Type} {m : GuardM α} {f : α → GuardM β}
    (hm : ∀ s, s.forceError = true → (m s).2 = s)
    (hf : ∀ a s, s.forceError = true → ((f a) s).2 = s) :
    ∀ s, s.forceError = true → ((m >>= f) s).2 = s := by
  intro s hs
  rw [GuardM.bind_apply]
  rcases hr : m s with ⟨r, s1⟩
  have h1 := hm s hs
  rw [hr] at h1
  cases r with
  | error e => exact h1
  | ok a =>
    have h2 : s1 = s := h1
    rw [h2]
    exact hf a s hs

theorem bind_calls {α β : Type} {m : GuardM α} {f : α → GuardM β}
    (hm : ∀ s, (m s).2.handlerCalls = s.handlerCalls)
    (hf : ∀ a s, ((f a) s).2.handlerCalls = s.handlerCalls) :
    ∀ s, ((m >>= f) s).2.handlerCalls = s.handlerCalls := by
  intro s
  rw [GuardM.bind_apply]
  rcases hr : m s with ⟨r, s1⟩
  have h1 := hm s
  rw [hr] at h1
  cases r with
  | error e => exact h1
  | ok a => exact (hf a s1).trans h1

theorem pure_flag {α : Type} (a : α) (s : PolicyState) :
    ((GuardM.pure a : GuardM α) s).2.forceError = s.forceError := rfl

theorem pure_inert {α : Type} (a : α) (s : PolicyState) :
    ((GuardM.pure a : GuardM α) s).2 = s := rfl

theorem pure_calls {α : Type} (a : α) (s : PolicyState) :
    ((GuardM.pure a : GuardM α) s).2.handlerCalls = s.handlerCalls := rfl

theorem errorHandler_inert_state (cfg : Config) (msg : String) (s : PolicyState)
    (h : s.forceError = true) : ((errorHandler cfg msg) s).2 = s := by
  rw [errorHandler_inert cfg msg s h]

theorem errorHandler_default_calls (cfg : Config) (msg : String) (s : PolicyState)
    (h : cfg.customErrorHandler = false) :
    ((errorHandler cfg msg) s).2.handlerCalls = s.handlerCalls := by
  rw [errorHandler_default cfg msg s h]

/-! ### The primitive guards obey the state discipline -/

theorem good_number (cfg : Config) : Good cfg (TypeCalm.number cfg) := by
  refine ⟨?_, ?_, ?_⟩
  · intro v s
    rcases s with ⟨b, hc⟩
    rw [number_run]
    split_ifs <;> rfl
  · intro v s hs
    rcases s with ⟨b, hc⟩
    simp only at hs
    subst hs
    rw [number_run]
    split_ifs with h1 h2 h3 h4 <;> first | rfl | simp_all
  · intro hch v s
    rcases s with ⟨b, hc⟩
    rw [number_run]
    rw [hch]
    split_ifs <;> first | rfl | simp_all

theorem good_string (cfg : Config) : Good cfg (TypeCalm.string cfg) := by
  refine ⟨?_, ?_, ?_⟩
  · intro v s
    rcases s with ⟨b, hc⟩
    rw [string_run]
    split_ifs <;> rfl
  · intro v s hs
    rcases s with ⟨b, hc⟩
    simp only at hs
    subst hs
    rw [string_run]
    split_ifs <;> first | rfl | simp_all
  · intro hch v s
    rcases s with ⟨b, hc⟩
    rw [string_run]
    rw [hch]
    split_ifs <;> first | rfl | simp_all

theorem good_boolean (cfg : Config) : Good cfg (TypeCalm.boolean cfg) := by
  refine ⟨?_, ?_, ?_⟩
  · intro v s
    rcases s with ⟨b, hc⟩
    rw [boolean_run]
    split_ifs <;> rfl
  · intro v s hs
    rcases s with ⟨b, hc⟩
    simp only at hs
    subst hs
    rw [boolean_run]
    split_ifs <;> first | rfl | simp_all
  · intro hch v s
    rcases s with ⟨b, hc⟩
    rw [boolean_run]
    rw [hch]
    split_ifs <;> first | rfl | simp_all

theorem good_oneOf (cfg : Config) (values : List JSVal) : Good cfg (TypeCalm.oneOf cfg values) := by
  refine ⟨?_, ?_, ?_⟩
  · intro v s
    rcases s with ⟨b, hc⟩
    rw [oneOf_run]
    split_ifs <;> rfl
  · intro v s hs
    rcases s with ⟨b, hc⟩
    simp only at hs
    subst hs
    rw [oneOf_run]
    split_ifs <;> first | rfl | simp_all
  · intro hch v s
    rcases s with ⟨b, hc⟩
    rw [oneOf_run]
    rw [hch]
    split_ifs <;> first | rfl | simp_all

/-! ### Sequence combinators (`array`, `recordOf`, modifiers) -/

theorem mapGuard_flag (inner : Guard) (h : FlagRestored inner) :
    ∀ (xs : List JSVal) (s : PolicyState),
      ((TypeCalm.mapGuard inner xs) s).2.forceError = s.forceError := by
  intro xs
  induction xs with
  | nil => intro s; rfl
  | cons x rest ih =>
    intro s
    simp only [TypeCalm.mapGuard]
    exact bind_flag (h x) (fun y => bind_flag ih (fun ys s2 => rfl)) s

theorem mapGuard_inert (inner : Guard) (h : SuppressedInert inner) :
    ∀ (xs : List JSVal) (s : PolicyState), s.forceError = true →
      ((TypeCalm.mapGuard inner xs) s).2 = s := by
  intro xs
  induction xs with
  | nil => intro s _; rfl
  | cons x rest ih =>
    intro s hs
    simp only [TypeCalm.mapGuard]
    exact bind_inert (h x) (fun y => bind_inert ih (fun ys s2 _ => rfl)) s hs

theorem mapGuard_calls (inner : Guard) (cfg : Config) (h : SilentWhenDefault cfg inner)
    (hch : cfg.customErrorHandler = false) :
    ∀ (xs : List JSVal) (s : PolicyState),
      ((TypeCalm.mapGuard inner xs) s).2.handlerCalls = s.handlerCalls := by
  intro xs
  induction xs with
  | nil => intro s; rfl
  | cons x rest ih =>
    intro s
    simp only [TypeCalm.mapGuard]
    exact bind_calls (h hch x) (fun y => bind_calls ih (fun ys s2 => rfl)) s

theorem good_array (cfg : Config) (inner : Guard) (h : Good cfg inner) :
    Good cfg (TypeCalm.array cfg inner) := by
  obtain ⟨hflag, hinert, hsilent⟩ := h
  refine ⟨?_, ?_, ?_⟩
  · intro v s
    cases v <;> simp only [TypeCalm.array] <;>
      first
      | exact bind_flag (mapGuard_flag inner hflag _) (fun out s1 => rfl) s
      | exact bind_flag (errorHandler_flag cfg _)
          (fun _ => bind_flag (errorHandler_flag cfg _)
            (fun _ => bind_flag (mapGuard_flag inner hflag _) (fun out s2 => rfl))) s
  · intro v s hs
    cases v <;> simp only [TypeCalm.array] <;>
      first
      | exact bind_inert (mapGuard_inert inner hinert _) (fun out s1 _ => rfl) s hs
      | exact bind_inert (errorHandler_inert_state cfg _)
          (fun _ => bind_inert (errorHandler_inert_state cfg _)
            (fun _ => bind_inert (mapGuard_inert inner hinert _) (fun out s2 _ => rfl))) s hs
  · intro hch v s
    cases v <;> simp only [TypeCalm.array] <;>
      first
      | exact bind_calls (mapGuard_calls inner cfg hsilent hch _) (fun out s1 => rfl) s
      | exact bind_calls (fun s0 => errorHandler_default_calls cfg _ s0 hch)
          (fun _ => bind_calls (fun s0 => errorHandler_default_calls cfg _ s0 hch)
            (fun _ => bind_calls (mapGuard_calls inner cfg hsilent hch _) (fun out s2 => rfl))) s

theorem recordFields_flag (inner : Guard) (val : JSVal) (h : FlagRestored inner) :
    ∀ (ks : List String) (s : PolicyState),
      ((TypeCalm.recordFields inner val ks) s).2.forceError = s.forceError := by
  intro ks
  induction ks with
  | nil => intro s; rfl
  | cons k rest ih =>
    intro s
    simp only [TypeCalm.recordFields]
    exact bind_flag (h (getProp val k)) (fun w => bind_flag ih (fun ws s2 => rfl)) s

theorem recordFields_inert (inner : Guard) (val : JSVal) (h : SuppressedInert inner) :
    ∀ (ks : List String) (s : PolicyState), s.forceError = true →
      ((TypeCalm.recordFields inner val ks) s).2 = s := by
  intro ks
  induction ks with
  | nil => intro s _; rfl
  | cons k rest ih =>
    intro s hs
    simp only [TypeCalm.recordFields]
    exact bind_inert (h (getProp val k)) (fun w => bind_inert ih (fun ws s2 _ => rfl)) s hs

theorem recordFields_calls (inner : Guard) (val : JSVal) (cfg : Config)
    (h : SilentWhenDefault cfg inner) (hch : cfg.customErrorHandler = false) :
    ∀ (ks : List String) (s : PolicyState),
      ((TypeCalm.recordFields inner val ks) s).2.handlerCalls = s.handlerCalls := by
  intro ks
  induction ks with
  | nil => intro s; rfl
  | cons k rest ih =>
    intro s
    simp only [TypeCalm.recordFields]
    exact bind_calls (h hch (getProp val k)) (fun w => bind_calls ih (fun ws s2 => rfl)) s

theorem good_recordOf (cfg : Config) (inner : Guard) (h : Good cfg inner) :
    Good cfg (TypeCalm.recordOf cfg inner) := by
  obtain ⟨hflag, hinert, hsilent⟩ := h
  refine ⟨?_, ?_, ?_⟩
  · intro v s
    by_cases hv : isStructured v = true
    · simp only [TypeCalm.recordOf, if_pos hv]
      exact bind_flag (recordFields_flag inner v hflag _) (fun out s1 => rfl) s
    · simp only [TypeCalm.recordOf, if_neg hv]
      exact bind_flag (errorHandler_flag cfg _)
        (fun _ => bind_flag (errorHandler_flag cfg _) (fun _ out => rfl)) s
  · intro v s hs
    by_cases hv : isStructured v = true
    · simp only [TypeCalm.recordOf, if_pos hv]
      exact bind_inert (recordFields_inert inner v hinert _) (fun out s1 _ => rfl) s hs
    · simp only [TypeCalm.recordOf, if_neg hv]
      exact bind_inert (errorHandler_inert_state cfg _)
        (fun _ => bind_inert (errorHandler_inert_state cfg _) (fun _ out _ => rfl)) s hs
  · intro hch v s
    by_cases hv : isStructured v = true
    · simp only [TypeCalm.recordOf, if_pos hv]
      exact bind_calls (recordFields_calls inner v cfg hsilent hch _) (fun out s1 => rfl) s
    · simp only [TypeCalm.recordOf, if_neg hv]
      exact bind_calls (fun s0 => errorHandler_default_calls cfg _ s0 hch)
        (fun _ => bind_calls (fun s0 => errorHandler_default_calls cfg _ s0 hch)
          (fun _ out => rfl)) s

theorem good_nullable (cfg : Config) (inner : Guard) (h : Good cfg inner) :
    Good cfg (TypeCalm.nullable inner) := by
  obtain ⟨hflag, hinert, hsilent⟩ := h
  refine ⟨?_, ?_, ?_⟩
  · intro v s
    cases v <;> simp only [TypeCalm.nullable] <;> first | rfl | exact hflag _ s
  · intro v s hs
    cases v <;> simp only [TypeCalm.nullable] <;> first | rfl | exact hinert _ s hs
  · intro hch v s
    cases v <;> simp only [TypeCalm.nullable] <;> first | rfl | exact hsilent hch _ s

theorem good_optional (cfg : Config) (inner : Guard) (h : Good cfg inner) :
    Good cfg (TypeCalm.optional inner) := by
  obtain ⟨hflag, hinert, hsilent⟩ := h
  refine ⟨?_, ?_, ?_⟩
  · intro v s
    cases v <;> simp only [TypeCalm.optional] <;> first | rfl | exact hflag _ s
  · intro v s hs
    cases v <;> simp only [TypeCalm.optional] <;> first | rfl | exact hinert _ s hs
  · intro hch v s
    cases v <;> simp only [TypeCalm.optional] <;> first | rfl | exact hsilent hch _ s

/-! ### The `object` field loop -/

theorem objectFields_inert (cfg : Config) (val : JSVal) :
    ∀ (fields : List (String × Guard)), (∀ p ∈ fields, SuppressedInert p.2) →
      ∀ (hc : List String),
        ((TypeCalm.objectFields cfg val fields) (PolicyState.mk true hc)).2 =
          PolicyState.mk true hc := by
  intro fields
  induction fields with
  | nil => intro _ hc; rfl
  | cons p rest ih =>
    rcases p with ⟨k, g⟩
    intro hall hc
    have hg : SuppressedInert g := hall (k, g) (List.mem_cons_self _ _)
    have hrest : ∀ p ∈ rest, SuppressedInert p.2 := fun q hq => hall q (List.mem_cons_of_mem _ hq)
    simp only [TypeCalm.objectFields, GuardM.bind_apply, getFlag_apply, setFlag_apply,
      attempt_apply]
    rcases hgv : (g (getProp val k)) (PolicyState.mk true hc) with ⟨r, s2⟩
    have hs2 : s2 = PolicyState.mk true hc := by
      have h2 := hg (getProp val k) (PolicyState.mk true hc) rfl
      rw [hgv] at h2
      exact h2
    subst hs2
    cases r with
    | ok w =>
      rcases hrec : (TypeCalm.objectFields cfg val rest) (PolicyState.mk true hc) with ⟨r2, s3⟩
      have hs3 : s3 = PolicyState.mk true hc := by
        have h3 := ih hrest hc
        rw [hrec] at h3
        exact h3
      subst hs3
      cases r2 with
      | ok restOut => simp [hgv, hrec, GuardM.bind_apply, GuardM.pure_apply, GuardM.monadPure_apply]
      | error e2 => simp [hgv, hrec, GuardM.bind_apply, GuardM.pure_apply, GuardM.monadPure_apply]
    | error e =>
      have herr := errorHandler_inert cfg ("Object '" ++ k ++ "' property error: " ++ e)
        (PolicyState.mk true hc) rfl
      simp [hgv, herr, GuardM.bind_apply, GuardM.pure_apply, GuardM.monadPure_apply,
        attempt_apply, throwG_apply]

theorem objectFields_cons_run (cfg : Config) (val : JSVal) (k : String) (g : Guard)
    (rest : List (String × Guard)) (hg : SuppressedInert g) (hc : List String) :
    (TypeCalm.objectFields cfg val ((k, g) :: rest)) (PolicyState.mk false hc) =
      match ((g (getProp val k)) (PolicyState.mk true hc)).1 with
      | Except.ok w =>
        (match (TypeCalm.objectFields cfg val rest) (PolicyState.mk false hc) with
         | (Except.ok restOut, s1) => (Except.ok ((k, w) :: restOut), s1)
         | (Except.error e2, s1) => (Except.error e2, s1))
      | Except.error e =>
        if cfg.customErrorHandler = false then
          (Except.error ("Object '" ++ k ++ "' property error: " ++ e), PolicyState.mk false hc)
        else
          (match (TypeCalm.objectFields cfg val rest)
              (PolicyState.mk false (hc ++ ["Object '" ++ k ++ "' property error: " ++ e])) with
           | (Except.ok restOut, s1) => (Except.ok ((k, getProp val k) :: restOut), s1)
           | (Except.error e2, s1) => (Except.error e2, s1)) := by
  simp only [TypeCalm.objectFields, GuardM.bind_apply, getFlag_apply, setFlag_apply,
    attempt_apply]
  rcases hgv : (g (getProp val k)) (PolicyState.mk true hc) with ⟨r, s2⟩
  have hs2 : s2 = PolicyState.mk true hc := by
    have h2 := hg (getProp val k) (PolicyState.mk true hc) rfl
    rw [hgv] at h2
    exact h2
  subst hs2
  cases r with
  | ok w =>
    rcases hrec : (TypeCalm.objectFields cfg val rest) (PolicyState.mk false hc) with ⟨r2, s3⟩
    cases r2 with
    | ok restOut =>
      simp [hgv, hrec, GuardM.bind_apply, GuardM.pure_apply, GuardM.monadPure_apply,
        setFlag_apply]
    | error e2 =>
      simp [hgv, hrec, GuardM.bind_apply, GuardM.pure_apply, GuardM.monadPure_apply,
        setFlag_apply]
  | error e =>
    cases hch : cfg.customErrorHandler with
    | false =>
      simp [hgv, hch, GuardM.bind_apply, GuardM.pure_apply, GuardM.monadPure_apply,
        setFlag_apply, attempt_apply, errorHandler_apply, throwG_apply]
    | true =>
      rcases hrec : (TypeCalm.objectFields cfg val rest)
          (PolicyState.mk false (hc ++ ["Object '" ++ k ++ "' property error: " ++ e])) with
        ⟨r2, s3⟩
      cases r2 with
      | ok restOut =>
        simp [hgv, hch, hrec, GuardM.bind_apply, GuardM.pure_apply, GuardM.monadPure_apply,
          setFlag_apply, attempt_apply, errorHandler_apply, throwG_apply]
      | error e2 =>
        simp [hgv, hch, hrec, GuardM.bind_apply, GuardM.pure_apply, GuardM.monadPure_apply,
          setFlag_apply, attempt_apply, errorHandler_apply, throwG_apply]

theorem objectFields_inert_state (cfg : Config) (val : JSVal)
    (fields : List (String × Guard)) (hin : ∀ p ∈ fields, SuppressedInert p.2) :
    ∀ (s : PolicyState), s.forceError = true →
      ((TypeCalm.objectFields cfg val fields) s).2 = s := by
  intro s hs
  rcases s with ⟨b, hc⟩
  have hb : b = true := hs
  subst hb
  exact objectFields_inert cfg val fields hin hc

theorem objectFields_flag (cfg : Config) (val : JSVal) :
    ∀ (fields : List (String × Guard)), (∀ p ∈ fields, SuppressedInert p.2) →
      ∀ (s : PolicyState),
        ((TypeCalm.objectFields cfg val fields) s).2.forceError = s.forceError := by
  intro fields
  induction fields with
  | nil => intro _ s; rfl
  | cons p rest ih =>
    rcases p with ⟨k, g⟩
    intro hall s
    have hg : SuppressedInert g := hall (k, g) (List.mem_cons_self _ _)
    have hrest : ∀ p ∈ rest, SuppressedInert p.2 := fun q hq => hall q (List.mem_cons_of_mem _ hq)
    rcases s with ⟨b, hc⟩
    cases b with
    | true =>
      rw [objectFields_inert cfg val ((k, g) :: rest) hall hc]
    | false =>
      rw [objectFields_cons_run cfg val k g rest hg hc]
      cases hr : ((g (getProp val k)) (PolicyState.mk true hc)).1 with
      | ok w =>
        rcases hrec : (TypeCalm.objectFields cfg val rest) (PolicyState.mk false hc) with ⟨r2, s3⟩
        have h3 := ih hrest (PolicyState.mk false hc)
        rw [hrec] at h3
        cases r2 <;> exact h3
      | error e =>
        cases hch : cfg.customErrorHandler with
        | false => simp [hch]
        | true =>
          simp only [hch, Bool.true_eq_false, if_false]
          rcases hrec : (TypeCalm.objectFields cfg val rest)
              (PolicyState.mk false (hc ++ ["Object '" ++ k ++ "' property error: " ++ e])) with
            ⟨r2, s3⟩
          have h3 := ih hrest
            (PolicyState.mk false (hc ++ ["Object '" ++ k ++ "' property error: " ++ e]))
          rw [hrec] at h3
          cases r2 <;> exact h3

theorem objectFields_calls_default (cfg : Config) (val : JSVal)
    (hch : cfg.customErrorHandler = false) :
    ∀ (fields : List (String × Guard)), (∀ p ∈ fields, SuppressedInert p.2) →
      ∀ (s : PolicyState),
        ((TypeCalm.objectFields cfg val fields) s).2.handlerCalls = s.handlerCalls := by
  intro fields
  induction fields with
  | nil => intro _ s; rfl
  | cons p rest ih =>
    rcases p with ⟨k, g⟩
    intro hall s
    have hg : SuppressedInert g := hall (k, g) (List.mem_cons_self _ _)
    have hrest : ∀ p ∈ rest, SuppressedInert p.2 := fun q hq => hall q (List.mem_cons_of_mem _ hq)
    rcases s with ⟨b, hc⟩
    cases b with
    | true =>
      rw [objectFields_inert cfg val ((k, g) :: rest) hall hc]
    | false =>
      rw [objectFields_cons_run cfg val k g rest hg hc]
      cases hr : ((g (getProp val k)) (PolicyState.mk true hc)).1 with
      | ok w =>
        rcases hrec : (TypeCalm.objectFields cfg val rest) (PolicyState.mk false hc) with ⟨r2, s3⟩
        have h3 := ih hrest (PolicyState.mk false hc)
        rw [hrec] at h3
        cases r2 <;> exact h3
      | error e => simp [hch]

theorem objectFields_growth (cfg : Config) (val : JSVal) :
    ∀ (fields : List (String × Guard)), (∀ p ∈ fields, SuppressedInert p.2) →
      ∀ (s : PolicyState),
        ((TypeCalm.objectFields cfg val fields) s).2.handlerCalls.length ≤
          s.handlerCalls.length + fields.length := by
  intro fields
  induction fields with
  | nil =>
    intro _ s
    simp only [TypeCalm.objectFields, GuardM.pure_apply]
    omega
  | cons p rest ih =>
    rcases p with ⟨k, g⟩
    intro hall s
    have hg : SuppressedInert g := hall (k, g) (List.mem_cons_self _ _)
    have hrest : ∀ p ∈ rest, SuppressedInert p.2 := fun q hq => hall q (List.mem_cons_of_mem _ hq)
    rcases s with ⟨b, hc⟩
    cases b with
    | true =>
      rw [objectFields_inert cfg val ((k, g) :: rest) hall hc]
      simp only [List.length_cons]
      omega
    | false =>
      rw [objectFields_cons_run cfg val k g rest hg hc]
      cases hr : ((g (getProp val k)) (PolicyState.mk true hc)).1 with
      | ok w =>
        rcases hrec : (TypeCalm.objectFields cfg val rest) (PolicyState.mk false hc) with ⟨r2, s3⟩
        have h3 := ih hrest (PolicyState.mk false hc)
        rw [hrec] at h3
        cases r2 <;> simp at h3 ⊢ <;> omega
      | error e =>
        cases hch : cfg.customErrorHandler with
        | false =>
          simp [hch]
        | true =>
          simp only [hch, Bool.true_eq_false, if_false]
          rcases hrec : (TypeCalm.objectFields cfg val rest)
              (PolicyState.mk false (hc ++ ["Object '" ++ k ++ "' property error: " ++ e])) with
            ⟨r2, s3⟩
          have h3 := ih hrest
            (PolicyState.mk false (hc ++ ["Object '" ++ k ++ "' property error: " ++ e]))
          rw [hrec] at h3
          cases r2 <;> simp at h3 ⊢ <;> omega

theorem good_object (cfg : Config) (fields : List (String × Guard))
    (h : ∀ p ∈ fields, Good cfg p.2) : Good cfg (TypeCalm.object cfg fields) := by
  have hin : ∀ p ∈ fields, SuppressedInert p.2 := fun p hp => (h p hp).2.1
  refine ⟨?_, ?_, ?_⟩
  · intro v s
    by_cases hv : isStructured v = true
    · simp only [TypeCalm.object, if_pos hv]
      exact bind_flag (objectFields_flag cfg v fields hin) (fun out s1 => rfl) s
    · simp only [TypeCalm.object, if_neg hv]
      exact bind_flag (errorHandler_flag cfg _)
        (fun _ => bind_flag (errorHandler_flag cfg _) (fun _ s2 => rfl)) s
  · intro v s hs
    by_cases hv : isStructured v = true
    · simp only [TypeCalm.object, if_pos hv]
      exact bind_inert (objectFields_inert_state cfg v fields hin) (fun out s1 _ => rfl) s hs
    · simp only [TypeCalm.object, if_neg hv]
      exact bind_inert (errorHandler_inert_state cfg _)
        (fun _ => bind_inert (errorHandler_inert_state cfg _) (fun _ s2 _ => rfl)) s hs
  · intro hch v s
    by_cases hv : isStructured v = true
    · simp only [TypeCalm.object, if_pos hv]
      exact bind_calls (objectFields_calls_default cfg v hch fields hin) (fun out s1 => rfl) s
    · simp only [TypeCalm.object, if_neg hv]
      exact bind_calls (fun s0 => errorHandler_default_calls cfg _ s0 hch)
        (fun _ => bind_calls (fun s0 => errorHandler_default_calls cfg _ s0 hch)
          (fun _ s2 => rfl)) s

/-! ### `either` and `is` -/

theorem either_run (cfg : Config) (g1 g2 : Guard) (v : JSVal)
    (h1 : SuppressedInert g1) (h2 : SuppressedInert g2) (b : Bool) (hc : List String) :
    (TypeCalm.either cfg g1 g2 v) (PolicyState.mk b hc) =
      match ((g1 v) (PolicyState.mk true hc)).1 with
      | Except.ok _ => (Except.ok v, PolicyState.mk b hc)
      | Except.error e1 =>
        match ((g2 v) (PolicyState.mk true hc)).1 with
        | Except.ok _ => (Except.ok v, PolicyState.mk b hc)
        | Except.error e2 =>
          if b || !cfg.customErrorHandler then
            (Except.error ("Error: " ++ e1), PolicyState.mk b hc)
          else
            (Except.ok v, PolicyState.mk b (hc ++ ["Error: " ++ e1, "Error: " ++ e2])) := by
  have e1run := h1 v (PolicyState.mk true hc) rfl
  have e2run := h2 v (PolicyState.mk true hc) rfl
  rcases hr1 : (g1 v) (PolicyState.mk true hc) with ⟨r1, s1⟩
  rw [hr1] at e1run
  rcases hr2 : (g2 v) (PolicyState.mk true hc) with ⟨r2, s2⟩
  rw [hr2] at e2run
  have hs1 : s1 = PolicyState.mk true hc := e1run
  have hs2 : s2 = PolicyState.mk true hc := e2run
  subst hs1
  subst hs2
  rcases cfg with ⟨ch⟩
  cases b <;> cases ch <;> cases r1 <;> cases r2 <;>
    simp [TypeCalm.either, TypeCalm.reportErrors, GuardM.bind_apply, GuardM.pure_apply,
      GuardM.monadPure_apply, getFlag_apply, setFlag_apply, attempt_apply,
      errorHandler_apply, hr1, hr2]

theorem is_run (cfg : Config) (v : JSVal) (g : Guard) (h : SuppressedInert g)
    (b : Bool) (hc : List String) :
    (TypeCalm.is cfg v g) (PolicyState.mk b hc) =
      (Except.ok (succeeded ((g v) (PolicyState.mk true hc)).1), PolicyState.mk b hc) := by
  have erun := h v (PolicyState.mk true hc) rfl
  rcases hr : (g v) (PolicyState.mk true hc) with ⟨r, s1⟩
  rw [hr] at erun
  have hs1 : s1 = PolicyState.mk true hc := erun
  subst hs1
  cases b <;> cases r <;>
    simp [TypeCalm.is, succeeded, GuardM.bind_apply, GuardM.pure_apply,
      GuardM.monadPure_apply, getFlag_apply, setFlag_apply, attempt_apply, hr]

theorem good_either (cfg : Config) (g1 g2 : Guard) (hg1 : Good cfg g1) (hg2 : Good cfg g2) :
    Good cfg (TypeCalm.either cfg g1 g2) := by
  obtain ⟨-, h1, -⟩ := hg1
  obtain ⟨-, h2, -⟩ := hg2
  refine ⟨?_, ?_, ?_⟩
  · intro v s
    rcases s with ⟨b, hc⟩
    rw [either_run cfg g1 g2 v h1 h2 b hc]
    cases ((g1 v) (PolicyState.mk true hc)).1 <;> cases ((g2 v) (PolicyState.mk true hc)).1 <;>
      split_ifs <;> rfl
  · intro v s hs
    rcases s with ⟨b, hc⟩
    have hb : b = true := hs
    subst hb
    rw [either_run cfg g1 g2 v h1 h2 true hc]
    cases ((g1 v) (PolicyState.mk true hc)).1 <;> cases ((g2 v) (PolicyState.mk true hc)).1 <;>
      simp
  · intro hch v s
    rcases s with ⟨b, hc⟩
    rw [either_run cfg g1 g2 v h1 h2 b hc]
    cases ((g1 v) (PolicyState.mk true hc)).1 <;> cases ((g2 v) (PolicyState.mk true hc)).1 <;>
      simp [hch]

/-! ### Every guard of the factory grammar obeys the state discipline -/

mutual

theorem good_evalGuard (cfg : Config) (g : GuardExpr) : Good cfg (evalGuard cfg g) := by
  cases g with
  | gNumber =>
    rw [evalGuard]
    exact good_number cfg
  | gString =>
    rw [evalGuard]
    exact good_string cfg
  | gBoolean =>
    rw [evalGuard]
    exact good_boolean cfg
  | gArray inner =>
    rw [evalGuard]
    exact good_array cfg _ (good_evalGuard cfg inner)
  | gObject fields =>
    rw [evalGuard]
    exact good_object cfg _ (good_evalFields cfg fields)
  | gRecordOf inner =>
    rw [evalGuard]
    exact good_recordOf cfg _ (good_evalGuard cfg inner)
  | gNullable inner =>
    rw [evalGuard]
    exact good_nullable cfg _ (good_evalGuard cfg inner)
  | gOptional inner =>
    rw [evalGuard]
    exact good_optional cfg _ (good_evalGuard cfg inner)
  | gEither inner1 inner2 =>
    rw [evalGuard]
    exact good_either cfg _ _ (good_evalGuard cfg inner1) (good_evalGuard cfg inner2)
  | gOneOf values =>
    rw [evalGuard]
    exact good_oneOf cfg values

theorem good_evalFields (cfg : Config) (fl : FieldList) :
    ∀ p ∈ evalFields cfg fl, Good cfg p.2 := by
  cases fl with
  | fnil =>
    intro p hp
    rw [evalFields] at hp
    simp at hp
  | fcons k g rest =>
    intro p hp
    rw [evalFields] at hp
    rcases List.mem_cons.mp hp with h | h
    · rw [h]
      exact good_evalGuard cfg g
    · exact good_evalFields cfg rest p h

end

theorem evalFields_length (cfg : Config) : ∀ (fl : FieldList),
    (evalFields cfg fl).length = fl.length
  | FieldList.fnil => by rw [evalFields]; rfl
  | FieldList.fcons k g rest => by
    rw [evalFields]
    simp only [List.length_cons, FieldList.length, evalFields_length cfg rest]
    omega

/-! ### The claims -/

/-- C1: for every invocation of any guard of the factory grammar (primitive
guards, array, object, recordOf, nullable, optional, either, oneOf) and of
`is`, whether the invocation returns normally or raises, the factory's
suppression flag (`forceError`) immediately after the invocation equals its
value immediately before; consequently a subsequent independent top-level
call starts from the same cleared flag and observes Default-mode behavior
unaffected by the previous call. -/
theorem C1_suppression_restored (cfg : Config) (g : GuardExpr) (v : JSVal) (s : PolicyState) :
    ((evalGuard cfg g v) s).2.forceError = s.forceError ∧
    ((TypeCalm.is cfg v (evalGuard cfg g)) s).2.forceError = s.forceError := by
  constructor
  · exact (good_evalGuard cfg g).1 v s
  · rcases s with ⟨b, hc⟩
    rw [is_run cfg v (evalGuard cfg g) (good_evalGuard cfg g).2.1 b hc]

/-- C3: `is(v, g)` returns `true` exactly when `g v` would not raise under
suppression; `is` itself never raises (its outcome is always `Except.ok`),
never invokes the custom handler, and leaves the factory state exactly as
it was (flag restored, handler trace unchanged), for every ambient flag
value — including reentrant calls under someone else's suppression — and
for every reporting mode. -/
theorem C3_is_predicate (cfg : Config) (g : GuardExpr) (v : JSVal) (s : PolicyState) :
    (TypeCalm.is cfg v (evalGuard cfg g)) s =
      (Except.ok (succeeded ((evalGuard cfg g v) { s with forceError := true }).1), s) := by
  rcases s with ⟨b, hc⟩
  have h := is_run cfg v (evalGuard cfg g) (good_evalGuard cfg g).2.1 b hc
  simpa using h

/-- C4: each primitive guard is the identity on input of the matching
runtime kind, in every configuration and from every state; `number`
additionally signals, for NaN (which passes the `typeof` check), a
distinct failure whose message differs from the kind-mismatch message. -/
theorem C4_primitive_identity :
    (∀ (cfg : Config) (s : PolicyState) (x : Int),
      (TypeCalm.number cfg (JSVal.num x)) s = (Except.ok (JSVal.num x), s)) ∧
    (∀ (cfg : Config) (s : PolicyState) (t : String),
      (TypeCalm.string cfg (JSVal.str t)) s = (Except.ok (JSVal.str t), s)) ∧
    (∀ (cfg : Config) (s : PolicyState) (b : Bool),
      (TypeCalm.boolean cfg (JSVal.bool b)) s = (Except.ok (JSVal.bool b), s)) ∧
    ((TypeCalm.number cfgDefault JSVal.nan) (PolicyState.mk false []) =
      (Except.error "\"NaN\" is a NaN", PolicyState.mk false [])) ∧
    ("\"NaN\" is a NaN" ≠ invalidType JSVal.nan "a `number`") := by
  refine ⟨?_, ?_, ?_, ?_, ?_⟩
  · intro cfg s x; rfl
  · intro cfg s t; rfl
  · intro cfg s b; rfl
  · rfl
  · decide

/-- C5: under Default mode, `object({a: number, b: string})` applied to
`{a: "4", b: 4}` raises exactly the message
`Object 'a' property error: `"4"` is not a `number`.` — the failure of the
first declared field, in the exact annotated format, even though the
second field would fail too. -/
theorem C5_object_first_field_error :
    (evalGuard cfgDefault
        (GuardExpr.gObject (FieldList.fcons "a" GuardExpr.gNumber
          (FieldList.fcons "b" GuardExpr.gString FieldList.fnil)))
        (JSVal.obj [("a", JSVal.str "4"), ("b", JSVal.num 4)]))
      (PolicyState.mk false []) =
      (Except.error "Object 'a' property error: `\"4\"` is not a `number`.",
        PolicyState.mk false []) := rfl

/-- C6: `array(g)` maps the empty array to the empty array in any state and
configuration; on `[v1, v2]` it returns `[g(v1), g(v2)]` when both element
validations succeed (states chained in sequence order); and when the first
element's validation fails, the whole guard fails with that element's
failure, whatever the second element is — the later element is never
validated. -/
theorem C6_array_spec (cfg : Config) (g : GuardExpr) (s : PolicyState) :
    ((evalGuard cfg (GuardExpr.gArray g) (JSVal.arr [])) s = (Except.ok (JSVal.arr []), s)) ∧
    (∀ (v1 v2 w1 w2 : JSVal) (s1 s2 : PolicyState),
      (evalGuard cfg g v1) s = (Except.ok w1, s1) →
      (evalGuard cfg g v2) s1 = (Except.ok w2, s2) →
      (evalGuard cfg (GuardExpr.gArray g) (JSVal.arr [v1, v2])) s =
        (Except.ok (JSVal.arr [w1, w2]), s2)) ∧
    (∀ (v1 v2 : JSVal) (e : String) (s1 : PolicyState),
      (evalGuard cfg g v1) s = (Except.error e, s1) →
      (evalGuard cfg (GuardExpr.gArray g) (JSVal.arr [v1, v2])) s = (Except.error e, s1)) := by
  refine ⟨?_, ?_, ?_⟩
  · rw [evalGuard]
    rfl
  · intro v1 v2 w1 w2 s1 s2 hv1 hv2
    rw [evalGuard]
    simp [TypeCalm.array, TypeCalm.mapGuard, GuardM.bind_apply, GuardM.pure_apply, hv1, hv2]
  · intro v1 v2 e s1 hv1
    rw [evalGuard]
    simp [TypeCalm.array, TypeCalm.mapGuard, GuardM.bind_apply, GuardM.pure_apply, hv1]

/-- Witness for C6 at concrete inputs: `array(number)` on `[1, 2]` succeeds
elementwise, and on `["x", 5]` fails with the first element's failure. -/
theorem C6_array_spec_witness :
    ((evalGuard cfgDefault (GuardExpr.gArray GuardExpr.gNumber)
        (JSVal.arr [JSVal.num 1, JSVal.num 2])) (PolicyState.mk false []) =
      (Except.ok (JSVal.arr [JSVal.num 1, JSVal.num 2]), PolicyState.mk false [])) ∧
    ((evalGuard cfgDefault (GuardExpr.gArray GuardExpr.gNumber)
        (JSVal.arr [JSVal.str "x", JSVal.num 5])) (PolicyState.mk false []) =
      (Except.error (invalidType (JSVal.str "x") "a `number`"), PolicyState.mk false [])) := by
  constructor
  · exact (C6_array_spec cfgDefault GuardExpr.gNumber (PolicyState.mk false [])).2.1
      (JSVal.num 1) (JSVal.num 2) (JSVal.num 1) (JSVal.num 2)
      (PolicyState.mk false []) (PolicyState.mk false []) rfl rfl
  · exact (C6_array_spec cfgDefault GuardExpr.gNumber (PolicyState.mk false [])).2.2
      (JSVal.str "x") (JSVal.num 5) (invalidType (JSVal.str "x") "a `number`")
      (PolicyState.mk false []) rfl

/-- C7: whenever `either(a, b)` returns rather than raising — one branch
succeeded, or both failed but the Error Policy did not raise — the returned
value is the original input itself, not a branch's validated output. -/
theorem C7_either_returns_input (cfg : Config) (a b : GuardExpr) (v : JSVal)
    (s s2 : PolicyState) (r : JSVal)
    (h : (evalGuard cfg (GuardExpr.gEither a b) v) s = (Except.ok r, s2)) : r = v := by
  rcases s with ⟨bb, hc⟩
  rw [evalGuard] at h
  rw [either_run cfg _ _ v (good_evalGuard cfg a).2.1 (good_evalGuard cfg b).2.1 bb hc] at h
  cases h1 : ((evalGuard cfg a v) (PolicyState.mk true hc)).1 with
  | ok w =>
    rw [h1] at h
    simp at h
    exact h.1.symm
  | error e1 =>
    rw [h1] at h
    cases h2 : ((evalGuard cfg b v) (PolicyState.mk true hc)).1 with
    | ok w =>
      rw [h2] at h
      simp at h
      exact h.1.symm
    | error e2 =>
      rw [h2] at h
      split_ifs at h
      · simp at h
      · simp at h
        exact h.1.symm

/-- Witness for C7: a successful branch returns the input, and under a
custom handler a double failure still returns the input. -/
theorem C7_either_returns_input_witness :
    ((evalGuard cfgDefault (GuardExpr.gEither GuardExpr.gNumber GuardExpr.gString)
        (JSVal.num 4)) (PolicyState.mk false []) =
      (Except.ok (JSVal.num 4), PolicyState.mk false [])) ∧
    ((evalGuard cfgCustom (GuardExpr.gEither GuardExpr.gNumber GuardExpr.gString)
        (JSVal.bool true)) (PolicyState.mk false []) =
      (Except.ok (JSVal.bool true),
        PolicyState.mk false
          ["Error: `true` is not a `number`.", "Error: `true` is not a `string`."])) ∧
    JSVal.num 4 = JSVal.num 4 ∧ JSVal.bool true = JSVal.bool true := by
  refine ⟨rfl, rfl, ?_, ?_⟩
  · exact C7_either_returns_input cfgDefault GuardExpr.gNumber GuardExpr.gString (JSVal.num 4)
      (PolicyState.mk false []) (PolicyState.mk false []) (JSVal.num 4) rfl
  · exact C7_either_returns_input cfgCustom GuardExpr.gNumber GuardExpr.gString (JSVal.bool true)
      (PolicyState.mk false [])
      (PolicyState.mk false
        ["Error: `true` is not a `number`.", "Error: `true` is not a `string`."])
      (JSVal.bool true) rfl

/-- C2 counterexample: `either(number, string)(true)` under Default mode
with suppression off raises with message
`Error: `true` is not a `number`.` — which contains branch a's failure
message but does NOT contain branch b's failure message
(``true` is not a `string`.`), so the raised failure does not reference
both branch failures as the claim states. -/
theorem C2_counterexample :
    ((evalGuard cfgDefault (GuardExpr.gEither GuardExpr.gNumber GuardExpr.gString)
        (JSVal.bool true)) (PolicyState.mk false []) =
      (Except.error "Error: `true` is not a `number`.", PolicyState.mk false [])) ∧
    containsSubstr "Error: `true` is not a `number`."
      (invalidType (JSVal.bool true) "a `number`") = true ∧
    containsSubstr "Error: `true` is not a `number`."
      (invalidType (JSVal.bool true) "a `string`") = false := by
  refine ⟨rfl, by decide, by decide⟩

/-- C2 amended: when both branches fail under suppression, `either(a, b)`
invoked with suppression off under Default mode raises a single failure
whose message is the `String(e)` rendering of the FIRST branch's failure
only ("Error: " followed by branch a's message); branch b's message is not
part of the raise (the per-error reporting loop raises on its first
iteration). -/
theorem C2_either_reports_first_error (a b : GuardExpr) (v : JSVal) (hc : List String)
    (e1 e2 : String)
    (h1 : ((evalGuard cfgDefault a v) (PolicyState.mk true hc)).1 = Except.error e1)
    (h2 : ((evalGuard cfgDefault b v) (PolicyState.mk true hc)).1 = Except.error e2) :
    (evalGuard cfgDefault (GuardExpr.gEither a b) v) (PolicyState.mk false hc) =
      (Except.error ("Error: " ++ e1), PolicyState.mk false hc) := by
  rw [evalGuard]
  rw [either_run cfgDefault _ _ v (good_evalGuard cfgDefault a).2.1
    (good_evalGuard cfgDefault b).2.1 false hc]
  rw [h1, h2]
  simp [cfgDefault]

/-- Witness for the amended C2 at `either(number, string)(true)`. -/
theorem C2_either_reports_first_error_witness :
    (((evalGuard cfgDefault GuardExpr.gNumber (JSVal.bool true)) (PolicyState.mk true [])).1 =
      Except.error (invalidType (JSVal.bool true) "a `number`")) ∧
    (((evalGuard cfgDefault GuardExpr.gString (JSVal.bool true)) (PolicyState.mk true [])).1 =
      Except.error (invalidType (JSVal.bool true) "a `string`")) ∧
    ((evalGuard cfgDefault (GuardExpr.gEither GuardExpr.gNumber GuardExpr.gString)
        (JSVal.bool true)) (PolicyState.mk false []) =
      (Except.error ("Error: " ++ invalidType (JSVal.bool true) "a `number`"),
        PolicyState.mk false [])) := by
  refine ⟨rfl, rfl, ?_⟩
  exact C2_either_reports_first_error GuardExpr.gNumber GuardExpr.gString (JSVal.bool true) []
    (invalidType (JSVal.bool true) "a `number`") (invalidType (JSVal.bool true) "a `string`")
    rfl rfl

/-- C8 counterexample: with a custom (non-raising) handler and two failing
declared fields, a single `object` call reports TWO failures through the
Error Policy (two handler invocations), refuting "at most one per call
regardless of reporting mode". -/
theorem C8_counterexample :
    ¬ (((evalGuard cfgCustom
          (GuardExpr.gObject (FieldList.fcons "a" GuardExpr.gNumber
            (FieldList.fcons "b" GuardExpr.gNumber FieldList.fnil)))
          (JSVal.obj [("a", JSVal.str "x"), ("b", JSVal.str "y")]))
        (PolicyState.mk false [])).2.handlerCalls.length ≤ 1) := by
  intro hle
  have h : ((evalGuard cfgCustom
      (GuardExpr.gObject (FieldList.fcons "a" GuardExpr.gNumber
        (FieldList.fcons "b" GuardExpr.gNumber FieldList.fnil)))
      (JSVal.obj [("a", JSVal.str "x"), ("b", JSVal.str "y")]))
      (PolicyState.mk false [])).2.handlerCalls.length = 2 := rfl
  rw [h] at hle
  exact absurd hle (by decide)

/-- C8 amended: for a single `object(shape)` call on a structured input,
the inner field validations run suppressed and never reach the Error
Policy themselves; consequently under Default mode (no custom handler) no
handler invocation is ever recorded and at most one failure is raised,
while under a Custom handler each failing field reports once, so the
number of handler invocations grows by at most the number of declared
fields — not by at most one. -/
theorem C8_object_reporting (cfg : Config) (fl : FieldList) (v : JSVal) (s : PolicyState)
    (hv : isStructured v = true) :
    (cfg.customErrorHandler = false →
      ((evalGuard cfg (GuardExpr.gObject fl) v) s).2.handlerCalls = s.handlerCalls) ∧
    ((evalGuard cfg (GuardExpr.gObject fl) v) s).2.handlerCalls.length ≤
      s.handlerCalls.length + fl.length := by
  have hin : ∀ p ∈ evalFields cfg fl, SuppressedInert p.2 :=
    fun p hp => (good_evalFields cfg fl p hp).2.1
  constructor
  · intro hch
    exact (good_evalGuard cfg (GuardExpr.gObject fl)).2.2 hch v s
  · rw [evalGuard]
    simp only [TypeCalm.object, if_pos hv]
    rw [GuardM.bind_apply]
    rcases hrec : (TypeCalm.objectFields cfg v (evalFields cfg fl)) s with ⟨r2, s3⟩
    have hg := objectFields_growth cfg v (evalFields cfg fl) hin s
    rw [hrec] at hg
    rw [evalFields_length cfg fl] at hg
    cases r2 <;> simpa using hg

/-- Witness for the amended C8: two failing number fields, no handler
invocation under Default mode, and at most two under a custom handler. -/
theorem C8_object_reporting_witness :
    (((evalGuard cfgDefault
        (GuardExpr.gObject (FieldList.fcons "a" GuardExpr.gNumber
          (FieldList.fcons "b" GuardExpr.gNumber FieldList.fnil)))
        (JSVal.obj [("a", JSVal.str "x"), ("b", JSVal.str "y")]))
      (PolicyState.mk false [])).2.handlerCalls = []) ∧
    (((evalGuard cfgCustom
        (GuardExpr.gObject (FieldList.fcons "a" GuardExpr.gNumber
          (FieldList.fcons "b" GuardExpr.gNumber FieldList.fnil)))
        (JSVal.obj [("a", JSVal.str "x"), ("b", JSVal.str "y")]))
      (PolicyState.mk false [])).2.handlerCalls.length ≤ 2) := by
  constructor
  · exact (C8_object_reporting cfgDefault
      (FieldList.fcons "a" GuardExpr.gNumber (FieldList.fcons "b" GuardExpr.gNumber FieldList.fnil))
      (JSVal.obj [("a", JSVal.str "x"), ("b", JSVal.str "y")])
      (PolicyState.mk false []) rfl).1 rfl
  · exact (C8_object_reporting cfgCustom
      (FieldList.fcons "a" GuardExpr.gNumber (FieldList.fcons "b" GuardExpr.gNumber FieldList.fnil))
      (JSVal.obj [("a", JSVal.str "x"), ("b", JSVal.str "y")])
      (PolicyState.mk false []) rfl).2

/-- C9: a primitive kind mismatch reports twice in sequence — first the
`... is not ...` message, then the `Casting ... to ...` message. Under a
custom (non-raising) handler with suppression off this is exactly two
handler invocations in order, followed by the best-effort coerced return;
under Default mode the first message is raised and the second is never
produced (the trace is unchanged). -/
theorem C9_primitive_double_report :
    (∀ (v : JSVal) (s : PolicyState), s.forceError = false → jsTypeof v ≠ "number" →
      ((TypeCalm.number cfgCustom v) s =
        (Except.ok (jsNumber v),
          PolicyState.mk false
            (s.handlerCalls ++ [invalidType v "a `number`", castingType v "a `number`"]))) ∧
      ((TypeCalm.number cfgDefault v) s = (Except.error (invalidType v "a `number`"), s))) ∧
    (∀ (v : JSVal) (s : PolicyState), s.forceError = false → jsTypeof v ≠ "string" →
      ((TypeCalm.string cfgCustom v) s =
        (Except.ok (JSVal.str (jsToString v)),
          PolicyState.mk false
            (s.handlerCalls ++ [invalidType v "a `string`", castingType v "a `string`"]))) ∧
      ((TypeCalm.string cfgDefault v) s = (Except.error (invalidType v "a `string`"), s))) ∧
    (∀ (v : JSVal) (s : PolicyState), s.forceError = false → jsTypeof v ≠ "boolean" →
      ((TypeCalm.boolean cfgCustom v) s =
        (Except.ok (JSVal.bool (jsBoolean v)),
          PolicyState.mk false
            (s.handlerCalls ++ [invalidType v "a `boolean`", castingType v "a `boolean`"]))) ∧
      ((TypeCalm.boolean cfgDefault v) s = (Except.error (invalidType v "a `boolean`"), s))) := by
  refine ⟨?_, ?_, ?_⟩
  · intro v s hs hv
    rcases s with ⟨b, hc⟩
    have hb : b = false := hs
    subst hb
    constructor
    · rw [number_run, if_neg hv]
      simp [cfgCustom]
    · rw [number_run, if_neg hv]
      simp [cfgDefault]
  · intro v s hs hv
    rcases s with ⟨b, hc⟩
    have hb : b = false := hs
    subst hb
    constructor
    · rw [string_run, if_neg hv]
      simp [cfgCustom]
    · rw [string_run, if_neg hv]
      simp [cfgDefault]
  · intro v s hs hv
    rcases s with ⟨b, hc⟩
    have hb : b = false := hs
    subst hb
    constructor
    · rw [boolean_run, if_neg hv]
      simp [cfgCustom]
    · rw [boolean_run, if_neg hv]
      simp [cfgDefault]

/-- Witness for C9: each primitive on a concrete mismatched input. -/
theorem C9_primitive_double_report_witness :
    ((TypeCalm.number cfgCustom (JSVal.str "4")) (PolicyState.mk false []) =
      (Except.ok (jsNumber (JSVal.str "4")),
        PolicyState.mk false
          ([] ++ [invalidType (JSVal.str "4") "a `number`",
            castingType (JSVal.str "4") "a `number`"]))) ∧
    ((TypeCalm.number cfgDefault (JSVal.str "4")) (PolicyState.mk false []) =
      (Except.error (invalidType (JSVal.str "4") "a `number`"), PolicyState.mk false [])) ∧
    ((TypeCalm.string cfgCustom (JSVal.num 4)) (PolicyState.mk false []) =
      (Except.ok (JSVal.str (jsToString (JSVal.num 4))),
        PolicyState.mk false
          ([] ++ [invalidType (JSVal.num 4) "a `string`",
            castingType (JSVal.num 4) "a `string`"]))) ∧
    ((TypeCalm.boolean cfgCustom (JSVal.num 0)) (PolicyState.mk false []) =
      (Except.ok (JSVal.bool (jsBoolean (JSVal.num 0))),
        PolicyState.mk false
          ([] ++ [invalidType (JSVal.num 0) "a `boolean`",
            castingType (JSVal.num 0) "a `boolean`"]))) := by
  refine ⟨?_, ?_, ?_, ?_⟩
  · exact (C9_primitive_double_report.1 (JSVal.str "4") (PolicyState.mk false [])
      rfl (by decide)).1
  · exact (C9_primitive_double_report.1 (JSVal.str "4") (PolicyState.mk false [])
      rfl (by decide)).2
  · exact (C9_primitive_double_report.2.1 (JSVal.num 4) (PolicyState.mk false [])
      rfl (by decide)).1
  · exact (C9_primitive_double_report.2.2 (JSVal.num 0) (PolicyState.mk false [])
      rfl (by decide)).1

/-- C10: `oneOf(...values)` applied, with suppression off and a custom
(non-raising) handler, to a value outside the permitted set reports the
membership failure and then returns the undefined value — not the input
and not a member of the set — because the final cast in the source is an
expression statement, not a return. -/
theorem C10_oneOf_returns_undefined (values : List JSVal) (v : JSVal) (s : PolicyState)
    (hmem : values.any (fun w => sameValueZero w v) = false) (hs : s.forceError = false) :
    (TypeCalm.oneOf cfgCustom values v) s =
      (Except.ok JSVal.undefined,
        PolicyState.mk false
          (s.handlerCalls ++
            [invalidType v ("one of " ++ jsToString (JSVal.arr values))])) := by
  rcases s with ⟨b, hc⟩
  have hb : b = false := hs
  subst hb
  rw [oneOf_run, hmem]
  simp [cfgCustom]

/-- Witness for C10: `oneOf(1, 2)("x")` under a custom handler. -/
theorem C10_oneOf_returns_undefined_witness :
    (TypeCalm.oneOf cfgCustom [JSVal.num 1, JSVal.num 2] (JSVal.str "x"))
      (PolicyState.mk false []) =
      (Except.ok JSVal.undefined,
        PolicyState.mk false
          ([] ++
            [invalidType (JSVal.str "x")
              ("one of " ++ jsToString (JSVal.arr [JSVal.num 1, JSVal.num 2]))])) := by
  exact C10_oneOf_returns_undefined [JSVal.num 1, JSVal.num 2] (JSVal.str "x")
    (PolicyState.mk false []) (by decide) rfl
